import Mathlib

/-!
# Verification of the incremental ingestion engine

Shallow embedding of the core of `scripts/telegram_scraper.py` and the
id-extraction step of `scripts/yolo_enrich.py`, together with proofs of the
spec's testable properties.

Modelling conventions:
* A calendar date is encoded as the natural number `y * 10000 + m * 100 + d`
  (e.g. 2025-06-01 ↦ 20250601); the order on these codes agrees with the
  order on valid dates, so Python's `date` comparisons become `Nat` comparisons.
* The filesystem contents of a channel's image directory are a `List String`
  of file names; `dest.exists()` becomes list membership.
* Telethon's feed iterator is a `List (Option TMessage)`; `none` models the
  `msg is None` guard of the loop.  `iter_messages(channel, limit=n)` yields
  at most `n` messages, modelled by `List.take`.
* Network nondeterminism (whether `client.download_media` succeeds for a
  message, whether `scrape_channel` raises) is supplied as oracle data on the
  inputs (`TMessage.dlOk`, `ChanBehavior`).
-/

/-- Value of a decimal digit character (`'0'` ↦ 0, …, `'9'` ↦ 9). -/
def digitVal (c : Char) : Nat := c.toNat - 48

/-- Python's `int(...)` on a string of decimal digits. -/
def digitsToNat (l : List Char) : Nat := l.foldl (fun a c => a * 10 + digitVal c) 0

/-- Decimal digits of `n`, most significant first, computed with explicit fuel
(the fuel `n + 1` always suffices).  Models Python's `str(n)` / f-string
rendering of a non-negative integer. -/
def natCharsAux : Nat → Nat → List Char
  | 0, _ => []
  | fuel + 1, n =>
    if n < 10 then [Nat.digitChar n]
    else natCharsAux fuel (n / 10) ++ [Nat.digitChar (n % 10)]

/-- Python's `str(n)` for a natural number. -/
def natStr (n : Nat) : String := ⟨natCharsAux (n + 1) n⟩

/-- Characters kept verbatim by `sanitize_filename`: the regex class
`[\w\-_\. ]` (word characters, dash, underscore, dot, space). -/
def allowedChar (c : Char) : Bool :=
  c.isAlphanum || c = '_' || c = '-' || c = '.' || c = ' '

/-- One pass of `re.sub(r"[^\w\-_\. ]+", "_", _)`: a maximal run of
disallowed characters is replaced by a single underscore.  The flag records
whether the previous character was part of a replaced run. -/
def sanitizeAux : Bool → List Char → List Char
  | _, [] => []
  | prevRepl, c :: rest =>
    if allowedChar c then c :: sanitizeAux false rest
    else if prevRepl then sanitizeAux true rest
    else '_' :: sanitizeAux true rest

/-- Python's `str.strip()` (drop leading and trailing whitespace). -/
def pyStrip (s : String) : String :=
  ⟨((s.data.dropWhile Char.isWhitespace).reverse.dropWhile Char.isWhitespace).reverse⟩

/-- `sanitize_filename` from `telegram_scraper.py`:
`re.sub(r"[^\w\-_\. ]+", "_", name.strip())`. -/
def sanitize_filename (name : String) : String :=
  ⟨sanitizeAux false (pyStrip name).data⟩

/-- Two-digit zero-padded decimal rendering, for month and day fields. -/
def pad2 (n : Nat) : String := if n < 10 then "0" ++ natStr n else natStr n

/-- `date.isoformat()` on an encoded date (`20250601` ↦ `"2025-06-01"`). -/
def dateIso (code : Nat) : String :=
  natStr (code / 10000) ++ "-" ++ pad2 (code / 100 % 100) ++ "-" ++ pad2 (code % 100)

/-- Model of `pathlib.Path(s).suffix` for ordinary file names: the substring
from the last dot on, empty when there is no dot, when the dot is leading
(hidden-file convention), or when the dot is trailing. -/
def lastSuffix (s : String) : String :=
  let rev := s.data.reverse
  let pre := rev.takeWhile (fun c => c ≠ '.')
  if 0 < pre.length ∧ pre.length + 1 < rev.length + 1 ∧ pre.length + 1 ≠ rev.length
  then ⟨'.' :: pre.reverse⟩ else ""

/-- `n`-th candidate destination name of the collision loop in
`scrape_channel`: candidate 0 is the derived name `stem ++ ext`, candidate
`i ≥ 1` is `stem ++ "_" ++ str(i) ++ ext`. -/
def candidate (stem ext : String) : Nat → String
  | 0 => stem ++ ext
  | i + 1 => stem ++ "_" ++ natStr (i + 1) ++ ext

/-- The `while dest.exists()` loop of `scrape_channel` (lines 193–196),
starting at candidate `i`, with fuel bounding the number of probes. -/
def resolveFrom (existing : List String) (stem ext : String) : Nat → Nat → Option String
  | 0, _ => Option.none
  | fuel + 1, i =>
    let dest := candidate stem ext i
    if dest ∈ existing then resolveFrom existing stem ext fuel (i + 1) else some dest

/-- Collision-free destination derivation of Media Retrieval: probe
candidates 0, 1, 2, … until a name not present in `existing` is found.
`existing.length + 1` probes always suffice. -/
def resolveDest (existing : List String) (stem ext : String) : Option String :=
  resolveFrom existing stem ext (existing.length + 1) 0

/-- First contiguous run of decimal digits in a character list, if any. -/
def firstDigitRunChars : List Char → Option (List Char)
  | [] => Option.none
  | c :: rest =>
    if c.isDigit then some (c :: rest.takeWhile Char.isDigit)
    else firstDigitRunChars rest

/-- Id extraction of the Enrichment Dedup Loader
(`yolo_enrich.py` lines 128–130): `re.search(r"(\d+)", stem)` followed by
`int(...)` on the match. -/
def extract_message_id (stem : String) : Option Nat :=
  (firstDigitRunChars stem.data).map digitsToNat

/-! ## Data model of the scan loop -/

/-- Media attached to a feed item, as inspected by `scrape_channel`:
`msg.photo`, or `msg.document` with its declared MIME type and original file
name, or nothing. -/
inductive MediaInfo where
  | nothing
  | photo
  | document (mime : Option String) (origName : Option String)
deriving DecidableEq, Repr

/-- A feed item as observed by the scan loop.  `date` is the encoded calendar
date of the message (`none` models `msg.date = None`).  `dlOk` is the network
oracle: whether `download_with_retries` would return a path for this
message's media. -/
structure TMessage where
  id : Nat
  date : Option Nat
  media : MediaInfo
  dlOk : Bool
deriving DecidableEq, Repr

/-- The `is_image` classification of `scrape_channel` (lines 178–184):
a photo, or a document whose MIME type starts with `"image"`. -/
def isImage : MediaInfo → Bool
  | .photo => true
  | .document mime _ => (mime.getD "").startsWith "image"
  | .nothing => false

/-- Extension derivation of Media Retrieval (lines 187–190): default
`".jpg"`, overridden by the original file name's suffix when that name
contains a dot. -/
def extOf : MediaInfo → String
  | .document _ (some orig) => if '.' ∈ orig.data then lastSuffix orig else ".jpg"
  | _ => ".jpg"

/-- `if since and msg_date < since` (line 163). -/
def checkSince (sinceD : Option Nat) (d : Nat) : Bool :=
  match sinceD with
  | some s => decide (d < s)
  | Option.none => false

/-- `if until and msg_date >= until` (line 165). -/
def checkUntil (untilD : Option Nat) (d : Nat) : Bool :=
  match untilD with
  | some u => decide (u ≤ d)
  | Option.none => false

/-- `load_seen_ids` (lines 126–147): union of the well-formed integer ids
found in the date-partitioned log files of the channel.  The prior log is a
list of per-day files, each a list of lines; a line is `some id` when it
parses to an object with an integer `id`, `none` when malformed. -/
def load_seen_ids (priorLog : List (List (Option Nat))) : List Nat :=
  (priorLog.map (List.filterMap (fun x => x))).flatten

/-- Outcome of scanning one channel: the records appended to the item log
(partition date code, message id) in append order, the processed count
returned by `scrape_channel`, the media download attempts
(resolved destination, success flag), and the final contents of the
channel's image directory. -/
structure ScanResult where
  persisted : List (Nat × Nat)
  count : Nat
  downloads : List (Option String × Bool)
  files : List String
deriving DecidableEq, Repr

/-- Media side of one loop iteration (lines 177–201): when the message
carries an image, derive the file name, resolve collisions against the
directory contents, attempt the download; a successful download creates the
destination file.  Returns the download attempts and the updated directory. -/
def mediaStep (sanitized : String) (files : List String) (msg : TMessage) (d : Nat) :
    List (Option String × Bool) × List String :=
  if isImage msg.media then
    let ext := extOf msg.media
    let base := sanitized ++ "_" ++ natStr msg.id ++ "_" ++ dateIso d
    let destO := resolveDest files base ext
    let files1 :=
      if msg.dlOk then
        match destO with
        | some p => files ++ [p]
        | Option.none => files
      else files
    ([(destO, msg.dlOk)], files1)
  else ([], files)

/-- The per-message loop of `scrape_channel` (lines 157–205).  `none` feed
entries model the `msg is None` guard; an id in `seen` is skipped without
counting; a date before `since` breaks out of the loop entirely; a date at or
past `until` skips the item; otherwise the record is appended to its date
partition, media is handled, and the count increments. -/
def scrapeLoop (seen : List Nat) (sinceD untilD : Option Nat) (today : Nat)
    (sanitized : String) : List String → List (Option TMessage) → ScanResult
  | files, [] => ⟨[], 0, [], files⟩
  | files, Option.none :: rest => scrapeLoop seen sinceD untilD today sanitized files rest
  | files, some msg :: rest =>
    if msg.id ∈ seen then scrapeLoop seen sinceD untilD today sanitized files rest
    else
      let d := msg.date.getD today
      if checkSince sinceD d then ⟨[], 0, [], files⟩
      else if checkUntil untilD d then scrapeLoop seen sinceD untilD today sanitized files rest
      else
        let ms := mediaStep sanitized files msg d
        let tail := scrapeLoop seen sinceD untilD today sanitized ms.2 rest
        ⟨(d, msg.id) :: tail.persisted, tail.count + 1, ms.1 ++ tail.downloads, tail.files⟩

/-- `iter_messages(channel, limit=limit)`: the provider yields at most
`limit` messages of the feed, skipped or not. -/
def takeLimit : Option Nat → List (Option TMessage) → List (Option TMessage)
  | Option.none, l => l
  | some n, l => l.take n

/-- `scrape_channel` (lines 150–208): build the dedup index when
incremental, then run the scan loop over the capped feed.  `today` models
`date.today()`, `priorLog` the channel's prior log files, `files` the
channel's image directory contents at start. -/
def scrape_channel (channel : String) (limit : Option Nat) (incremental : Bool)
    (sinceD untilD : Option Nat) (today : Nat)
    (priorLog : List (List (Option Nat))) (files : List String)
    (feed : List (Option TMessage)) : ScanResult :=
  let sanitized := sanitize_filename channel
  let seen := if incremental then load_seen_ids priorLog else []
  scrapeLoop seen sinceD untilD today sanitized files (takeLimit limit feed)

/-! ## Retry/Backoff Executor -/

/-- One observable outcome of a `client.download_media` call:
a return (possibly `None`), a `FloodWaitError` carrying its wait seconds, or
a generic exception. -/
inductive DlEvent where
  | success (result : Option String)
  | floodWait (secs : Nat)
  | failure
deriving DecidableEq, Repr

/-- Result of `download_with_retries`: a return value (with the attempt
counter at that moment and the sleeps performed, oldest first), exhaustion of
the attempt budget, or an event trace that ended while the loop was still
running. -/
inductive DlOutcome where
  | done (result : Option String) (attempt : Nat) (sleeps : List Nat)
  | exhausted (sleeps : List Nat)
  | pending (attempt : Nat) (sleeps : List Nat)
deriving DecidableEq, Repr

/-- `download_with_retries` (lines 106–123) over a trace of call outcomes.
`attempt` and `sleeps` are the loop state (`sleeps` accumulated newest
first).  A `FloodWaitError` sleeps `secs + 1` and leaves the attempt counter
untouched; a generic exception increments it and sleeps `2 ^ attempt`;
the loop ends when `attempt < max_retries` fails, returning `None`
(modelled by `exhausted`). -/
def download_with_retries (max_retries : Nat) :
    List DlEvent → Nat → List Nat → DlOutcome
  | [], attempt, sleeps =>
    if attempt < max_retries then .pending attempt sleeps.reverse
    else .exhausted sleeps.reverse
  | ev :: rest, attempt, sleeps =>
    if attempt < max_retries then
      match ev with
      | .success r => .done r attempt sleeps.reverse
      | .floodWait s => download_with_retries max_retries rest attempt ((s + 1) :: sleeps)
      | .failure =>
        download_with_retries max_retries rest (attempt + 1) ((2 ^ (attempt + 1)) :: sleeps)
    else .exhausted sleeps.reverse

/-! ## Run Coordinator -/

/-- How one `scrape_channel` call ends: a returned count, a raised
`FloodWaitError`, or another raised exception. -/
inductive Terminal where
  | finished (n : Nat)
  | floodErr (secs : Nat)
  | raised (e : String)
deriving DecidableEq, Repr

/-- One `scrape_channel` call as observed by `main`: the records it appended
to the item log before ending, the time it took, and how it ended. -/
structure ChanAttempt where
  written : List (Nat × Nat)
  dur : Nat
  terminal : Terminal
deriving DecidableEq, Repr

/-- Oracle for a channel: the behavior of the first `scrape_channel` call,
and of the retry call made only after a `FloodWaitError`. -/
structure ChanBehavior where
  first : ChanAttempt
  second : ChanAttempt
deriving DecidableEq, Repr

/-- Manifest status string for one channel. -/
inductive ChanStatus where
  | ok
  | okAfterWait
  | error (e : String)
deriving DecidableEq, Repr

/-- One `manifest["results"]` entry: `{"processed": …, "status": …}`. -/
structure ChanEntry where
  processed : Nat
  status : ChanStatus
deriving DecidableEq, Repr

/-- Durable and temporal state threaded through the run: the append-only
item log across all channels, and a monotone clock. -/
structure RunState where
  log : List (Nat × Nat)
  time : Nat
deriving DecidableEq, Repr

/-- The per-channel loop of `main` (lines 251–269).  A clean return records
`ok`; a `FloodWaitError` sleeps and retries the channel once, recording
`ok_after_wait` on success — but an exception raised by that retry is caught
by no handler, so the whole loop aborts (`none` entries) with the log kept;
any other exception records `processed = 0` with an `error:` status and the
loop continues. -/
def runChannels (behavior : String → ChanBehavior) :
    List String → RunState → RunState × Option (List (String × ChanEntry))
  | [], st => (st, some [])
  | ch :: rest, st =>
    let b := behavior ch
    let st1 : RunState := ⟨st.log ++ b.first.written, st.time + b.first.dur⟩
    match b.first.terminal with
    | .finished n =>
      let r := runChannels behavior rest st1
      (r.1, r.2.map (fun es => (ch, ⟨n, .ok⟩) :: es))
    | .raised e =>
      let r := runChannels behavior rest st1
      (r.1, r.2.map (fun es => (ch, ⟨0, .error e⟩) :: es))
    | .floodErr s =>
      let b2 := b.second
      let st2 : RunState := ⟨st1.log ++ b2.written, st1.time + (s + 1) + b2.dur⟩
      match b2.terminal with
      | .finished n =>
        let r := runChannels behavior rest st2
        (r.1, r.2.map (fun es => (ch, ⟨n, .okAfterWait⟩) :: es))
      | _ => (st2, Option.none)

/-- `list(dict.fromkeys(channels))`: drop duplicates, keeping first
occurrences in order. -/
def dedupFirstAux (seenCh : List String) : List String → List String
  | [] => []
  | c :: rest =>
    if c ∈ seenCh then dedupFirstAux seenCh rest
    else c :: dedupFirstAux (c :: seenCh) rest

/-- First-occurrence deduplication of the requested channel list (line 234). -/
def dedupFirst (l : List String) : List String := dedupFirstAux [] l

/-- The run manifest (lines 240–249, 271): identifying data, start/end
timestamps and one result entry per channel, in channel order. -/
structure Manifest where
  run_id : Nat
  channels : List String
  started_at : Nat
  finished_at : Nat
  results : List (String × ChanEntry)
deriving DecidableEq, Repr

/-- Model of `main` (lines 211–275) from the point the channel list is assembled:
dedup the channels, bail out with no manifest when the list is empty, run
every channel, and write the manifest only when the channel loop ran to
completion.  Returns the final durable state and the manifest, `none` when
the process ended without writing one. -/
def mainRun (behavior : String → ChanBehavior) (t0 : Nat) (channels : List String) :
    RunState × Option Manifest :=
  let chs := dedupFirst channels
  if chs.isEmpty then (⟨[], t0⟩, Option.none)
  else
    let r := runChannels behavior chs ⟨[], t0⟩
    match r.2 with
    | some es => (r.1, some ⟨t0, chs, t0, r.1.time, es⟩)
    | Option.none => (r.1, Option.none)

/-! ## Lemmas: decimal rendering round-trips through digit extraction -/

theorem data_append (a b : String) : (a ++ b).data = a.data ++ b.data := rfl

theorem digitVal_digitChar : ∀ d : Nat, d < 10 → digitVal (Nat.digitChar d) = d := by
  decide

theorem digitChar_isDigit : ∀ d : Nat, d < 10 → (Nat.digitChar d).isDigit = true := by
  decide

theorem digitsToNat_append (l : List Char) (c : Char) :
    digitsToNat (l ++ [c]) = 10 * digitsToNat l + digitVal c := by
  simp [digitsToNat, List.foldl_append]
  ring

theorem natCharsAux_sound : ∀ fuel n, n < fuel → digitsToNat (natCharsAux fuel n) = n := by
  intro fuel
  induction fuel with
  | zero => intro n h; omega
  | succ fuel ih =>
    intro n h
    by_cases h10 : n < 10
    · simp [natCharsAux, h10, digitsToNat, digitVal_digitChar n h10]
    · have hdiv : n / 10 < n := Nat.div_lt_self (by omega) (by omega)
      simp only [natCharsAux, h10, if_false, digitsToNat_append]
      rw [ih (n / 10) (by omega), digitVal_digitChar (n % 10) (Nat.mod_lt n (by omega))]
      omega

theorem natCharsAux_digits : ∀ fuel n, ∀ c ∈ natCharsAux fuel n, c.isDigit = true := by
  intro fuel
  induction fuel with
  | zero => intro n c hc; simp [natCharsAux] at hc
  | succ fuel ih =>
    intro n c hc
    by_cases h10 : n < 10
    · simp [natCharsAux, h10] at hc
      rw [hc]; exact digitChar_isDigit n h10
    · simp [natCharsAux, h10] at hc
      rcases hc with hc | hc
      · exact ih (n / 10) c hc
      · rw [hc]; exact digitChar_isDigit (n % 10) (Nat.mod_lt n (by omega))

theorem natCharsAux_ne_nil : ∀ fuel n, 0 < fuel → natCharsAux fuel n ≠ [] := by
  intro fuel n h
  cases fuel with
  | zero => omega
  | succ fuel =>
    by_cases h10 : n < 10 <;> simp [natCharsAux, h10]

theorem natStr_val (n : Nat) : digitsToNat (natStr n).data = n :=
  natCharsAux_sound (n + 1) n (Nat.lt_succ_self n)

theorem natStr_digits (n : Nat) : ∀ c ∈ (natStr n).data, c.isDigit = true :=
  natCharsAux_digits (n + 1) n

theorem natStr_ne_nil (n : Nat) : (natStr n).data ≠ [] :=
  natCharsAux_ne_nil (n + 1) n (Nat.succ_pos n)

/-! ## Lemmas: first-digit-run extraction -/

theorem firstDigitRunChars_append_nodigit (l r : List Char)
    (h : ∀ c ∈ l, c.isDigit = false) :
    firstDigitRunChars (l ++ r) = firstDigitRunChars r := by
  induction l with
  | nil => rfl
  | cons c cs ih =>
    have hc : c.isDigit = false := h c (by simp)
    simp [firstDigitRunChars, hc]
    exact ih (fun x hx => h x (by simp [hx]))

theorem takeWhile_digits_stop (l : List Char) (x : Char) (t : List Char)
    (hl : ∀ c ∈ l, c.isDigit = true) (hx : x.isDigit = false) :
    (l ++ x :: t).takeWhile Char.isDigit = l := by
  induction l with
  | nil => simp [List.takeWhile, hx]
  | cons c cs ih =>
    have hc : c.isDigit = true := hl c (by simp)
    simp [List.takeWhile, hc]
    exact ih (fun y hy => hl y (by simp [hy]))

theorem firstDigitRunChars_run (l : List Char) (x : Char) (t : List Char)
    (hne : l ≠ []) (hl : ∀ c ∈ l, c.isDigit = true) (hx : x.isDigit = false) :
    firstDigitRunChars (l ++ x :: t) = some l := by
  cases l with
  | nil => exact absurd rfl hne
  | cons c cs =>
    have hc : c.isDigit = true := hl c (by simp)
    simp only [List.cons_append, firstDigitRunChars, hc, if_true, List.append_eq]
    rw [takeWhile_digits_stop cs x t (fun y hy => hl y (by simp [hy])) hx]

/-! ## Lemmas: collision resolution -/

theorem resolveFrom_free (existing : List String) (stem ext : String) :
    ∀ fuel i p, resolveFrom existing stem ext fuel i = some p → p ∉ existing := by
  intro fuel
  induction fuel with
  | zero => intro i p h; simp [resolveFrom] at h
  | succ fuel ih =>
    intro i p h
    by_cases hm : candidate stem ext i ∈ existing
    · simp only [resolveFrom, hm, if_true] at h
      exact ih (i + 1) p h
    · simp only [resolveFrom, hm, if_false, Option.some.injEq] at h
      rw [← h]; exact hm

theorem resolveDest_free (existing : List String) (stem ext : String) (p : String)
    (h : resolveDest existing stem ext = some p) : p ∉ existing :=
  resolveFrom_free existing stem ext (existing.length + 1) 0 p h

theorem resolveDest_of_free (existing : List String) (stem ext : String)
    (h : stem ++ ext ∉ existing) : resolveDest existing stem ext = some (stem ++ ext) := by
  simp [resolveDest, resolveFrom, candidate, h]

/-! ## Lemmas: one step of the scan loop -/

theorem scrapeLoop_skip_seen (seen : List Nat) (sinceD untilD : Option Nat)
    (today : Nat) (sanitized : String) (files : List String) (msg : TMessage)
    (rest : List (Option TMessage)) (h : msg.id ∈ seen) :
    scrapeLoop seen sinceD untilD today sanitized files (some msg :: rest)
      = scrapeLoop seen sinceD untilD today sanitized files rest := by
  simp [scrapeLoop, h]

theorem scrapeLoop_break (seen : List Nat) (sinceD untilD : Option Nat)
    (today : Nat) (sanitized : String) (files : List String) (msg : TMessage)
    (rest : List (Option TMessage)) (hns : msg.id ∉ seen)
    (hs : checkSince sinceD (msg.date.getD today) = true) :
    scrapeLoop seen sinceD untilD today sanitized files (some msg :: rest)
      = ⟨[], 0, [], files⟩ := by
  simp [scrapeLoop, hns, hs]

theorem scrapeLoop_skip_until (seen : List Nat) (sinceD untilD : Option Nat)
    (today : Nat) (sanitized : String) (files : List String) (msg : TMessage)
    (rest : List (Option TMessage)) (hns : msg.id ∉ seen)
    (hs : checkSince sinceD (msg.date.getD today) = false)
    (hu : checkUntil untilD (msg.date.getD today) = true) :
    scrapeLoop seen sinceD untilD today sanitized files (some msg :: rest)
      = scrapeLoop seen sinceD untilD today sanitized files rest := by
  simp [scrapeLoop, hns, hs, hu]

theorem scrapeLoop_persist (seen : List Nat) (sinceD untilD : Option Nat)
    (today : Nat) (sanitized : String) (files : List String) (msg : TMessage)
    (rest : List (Option TMessage)) (hns : msg.id ∉ seen)
    (hs : checkSince sinceD (msg.date.getD today) = false)
    (hu : checkUntil untilD (msg.date.getD today) = false) :
    scrapeLoop seen sinceD untilD today sanitized files (some msg :: rest)
      = ⟨(msg.date.getD today, msg.id) ::
          (scrapeLoop seen sinceD untilD today sanitized
            (mediaStep sanitized files msg (msg.date.getD today)).2 rest).persisted,
        (scrapeLoop seen sinceD untilD today sanitized
          (mediaStep sanitized files msg (msg.date.getD today)).2 rest).count + 1,
        (mediaStep sanitized files msg (msg.date.getD today)).1 ++
          (scrapeLoop seen sinceD untilD today sanitized
            (mediaStep sanitized files msg (msg.date.getD today)).2 rest).downloads,
        (scrapeLoop seen sinceD untilD today sanitized
          (mediaStep sanitized files msg (msg.date.getD today)).2 rest).files⟩ := by
  simp [scrapeLoop, hns, hs, hu]

theorem mediaStep_nonimage (sanitized : String) (files : List String) (msg : TMessage)
    (d : Nat) (h : isImage msg.media = false) :
    mediaStep sanitized files msg d = ([], files) := by
  simp [mediaStep, h]

theorem mediaStep_dlFail (sanitized : String) (files : List String) (msg : TMessage)
    (d : Nat) (hi : isImage msg.media = true) (hd : msg.dlOk = false) :
    mediaStep sanitized files msg d =
      ([(resolveDest files (sanitized ++ "_" ++ natStr msg.id ++ "_" ++ dateIso d)
          (extOf msg.media), false)], files) := by
  simp [mediaStep, hi, hd]

/-! ## Lemmas: whole-scan invariants -/

theorem scrapeLoop_not_seen (seen : List Nat) (sinceD untilD : Option Nat) (today : Nat)
    (sanitized : String) :
    ∀ (feed : List (Option TMessage)) (files : List String) (r : Nat × Nat),
      r ∈ (scrapeLoop seen sinceD untilD today sanitized files feed).persisted →
      r.2 ∉ seen := by
  intro feed
  induction feed with
  | nil => intro files r hr; simp [scrapeLoop] at hr
  | cons om rest ih =>
    intro files r hr
    cases om with
    | none => exact ih files r hr
    | some msg =>
      by_cases hseen : msg.id ∈ seen
      · rw [scrapeLoop_skip_seen _ _ _ _ _ _ _ _ hseen] at hr
        exact ih files r hr
      · cases hs : checkSince sinceD (msg.date.getD today) with
        | true =>
          rw [scrapeLoop_break _ _ _ _ _ _ _ _ hseen hs] at hr
          simp at hr
        | false =>
          cases hu : checkUntil untilD (msg.date.getD today) with
          | true =>
            rw [scrapeLoop_skip_until _ _ _ _ _ _ _ _ hseen hs hu] at hr
            exact ih files r hr
          | false =>
            rw [scrapeLoop_persist _ _ _ _ _ _ _ _ hseen hs hu] at hr
            simp only [List.mem_cons] at hr
            rcases hr with rfl | hr
            · exact hseen
            · exact ih _ r hr

/-- Whether a feed entry increments the processed count when no date bounds
are set: a real message whose id is not in the dedup index. -/
def countsNew (seen : List Nat) : Option TMessage → Bool
  | some m => if m.id ∈ seen then false else true
  | Option.none => false

/-- Ids of the feed entries that get persisted when no date bounds are set. -/
def newIds (seen : List Nat) (feed : List (Option TMessage)) : List Nat :=
  feed.filterMap (fun om =>
    match om with
    | some m => if m.id ∈ seen then Option.none else some m.id
    | Option.none => Option.none)

theorem scrapeLoop_noDates (seen : List Nat) (today : Nat) (sanitized : String) :
    ∀ (feed : List (Option TMessage)) (files : List String),
      (scrapeLoop seen Option.none Option.none today sanitized files feed).persisted.map
          Prod.snd = newIds seen feed
        ∧ (scrapeLoop seen Option.none Option.none today sanitized files feed).count
          = (newIds seen feed).length := by
  intro feed
  induction feed with
  | nil => intro files; simp [scrapeLoop, newIds]
  | cons om rest ih =>
    intro files
    cases om with
    | none =>
      have hstep : scrapeLoop seen Option.none Option.none today sanitized files
          (Option.none :: rest)
          = scrapeLoop seen Option.none Option.none today sanitized files rest := rfl
      rw [hstep]
      simpa [newIds] using ih files
    | some msg =>
      by_cases hseen : msg.id ∈ seen
      · rw [scrapeLoop_skip_seen _ _ _ _ _ _ _ _ hseen]
        simpa [newIds, hseen] using ih files
      · rw [scrapeLoop_persist seen Option.none Option.none today sanitized files msg rest
          hseen rfl rfl]
        have := ih (mediaStep sanitized files msg (msg.date.getD today)).2
        simp [newIds, hseen, this.1, this.2]

theorem scrapeLoop_early_exit (s today : Nat) (sanitized : String) :
    ∀ (pre : List TMessage) (files : List String) (bad : TMessage)
      (post : List (Option TMessage)),
      (∀ m ∈ pre, s ≤ m.date.getD today) →
      bad.date.getD today < s →
      (scrapeLoop [] (some s) Option.none today sanitized files
          (pre.map some ++ some bad :: post)).persisted
          = pre.map (fun m => (m.date.getD today, m.id))
        ∧ (scrapeLoop [] (some s) Option.none today sanitized files
            (pre.map some ++ some bad :: post)).count = pre.length := by
  intro pre
  induction pre with
  | nil =>
    intro files bad post _ hbad
    have hs : checkSince (some s) (bad.date.getD today) = true := by
      simp [checkSince]; omega
    rw [List.map_nil, List.nil_append,
      scrapeLoop_break _ _ _ _ _ _ _ _ (by simp) hs]
    exact ⟨rfl, rfl⟩
  | cons m pre ih =>
    intro files bad post hpre hbad
    have hm : s ≤ m.date.getD today := hpre m (by simp)
    have hs : checkSince (some s) (m.date.getD today) = false := by
      simp [checkSince]; omega
    rw [List.map_cons, List.cons_append,
      scrapeLoop_persist [] (some s) Option.none today sanitized files m
        (pre.map some ++ some bad :: post) (by simp) hs rfl]
    have := ih (mediaStep sanitized files m (m.date.getD today)).2 bad post
      (fun x hx => hpre x (by simp [hx])) hbad
    simp [this.1, this.2]

/-! ## Lemmas: run coordinator -/

/-- A channel behavior under which the single retry made after a
`FloodWaitError` runs to completion instead of raising again. -/
def retrySafe (b : ChanBehavior) : Prop :=
  ∀ s, b.first.terminal = Terminal.floodErr s → ∃ n, b.second.terminal = Terminal.finished n

theorem runChannels_log_mono (behavior : String → ChanBehavior) :
    ∀ (cs : List String) (st : RunState) (r : Nat × Nat),
      r ∈ st.log → r ∈ (runChannels behavior cs st).1.log := by
  intro cs
  induction cs with
  | nil => intro st r hr; exact hr
  | cons ch rest ih =>
    intro st r hr
    cases h1 : (behavior ch).first.terminal with
    | finished n =>
      simp only [runChannels, h1]
      exact ih _ r (by simp [hr])
    | raised e =>
      simp only [runChannels, h1]
      exact ih _ r (by simp [hr])
    | floodErr s =>
      cases h2 : (behavior ch).second.terminal with
      | finished n =>
        simp only [runChannels, h1, h2]
        exact ih _ r (by simp [hr])
      | floodErr s2 =>
        simp only [runChannels, h1, h2]
        simp [hr]
      | raised e =>
        simp only [runChannels, h1, h2]
        simp [hr]

theorem runChannels_total (behavior : String → ChanBehavior) :
    ∀ (cs : List String) (st : RunState), (∀ ch ∈ cs, retrySafe (behavior ch)) →
      ∃ es, (runChannels behavior cs st).2 = some es ∧ es.map Prod.fst = cs
        ∧ st.time ≤ (runChannels behavior cs st).1.time := by
  intro cs
  induction cs with
  | nil => intro st _; exact ⟨[], rfl, rfl, Nat.le_refl _⟩
  | cons ch rest ih =>
    intro st hsafe
    have hrest : ∀ c ∈ rest, retrySafe (behavior c) :=
      fun c hc => hsafe c (by simp [hc])
    cases h1 : (behavior ch).first.terminal with
    | finished n =>
      obtain ⟨es, h2, h3, h4⟩ := ih ⟨st.log ++ (behavior ch).first.written,
        st.time + (behavior ch).first.dur⟩ hrest
      refine ⟨(ch, ⟨n, .ok⟩) :: es, ?_, by simp [h3], ?_⟩
      · simp [runChannels, h1, h2]
      · simp only [runChannels, h1]
        exact Nat.le_trans (Nat.le_add_right _ _) h4
    | raised e =>
      obtain ⟨es, h2, h3, h4⟩ := ih ⟨st.log ++ (behavior ch).first.written,
        st.time + (behavior ch).first.dur⟩ hrest
      refine ⟨(ch, ⟨0, .error e⟩) :: es, ?_, by simp [h3], ?_⟩
      · simp [runChannels, h1, h2]
      · simp only [runChannels, h1]
        exact Nat.le_trans (Nat.le_add_right _ _) h4
    | floodErr s =>
      obtain ⟨n, h2⟩ := hsafe ch (by simp) s h1
      obtain ⟨es, h3, h4, h5⟩ := ih ⟨(st.log ++ (behavior ch).first.written)
          ++ (behavior ch).second.written,
        st.time + (behavior ch).first.dur + (s + 1) + (behavior ch).second.dur⟩ hrest
      refine ⟨(ch, ⟨n, .okAfterWait⟩) :: es, ?_, by simp [h4], ?_⟩
      · simp only [runChannels, h1, h2, h3]
        rfl
      · simp only [runChannels, h1, h2]
        refine Nat.le_trans ?_ h5
        show st.time ≤ st.time + (behavior ch).first.dur + (s + 1) + (behavior ch).second.dur
        omega

theorem runChannels_error_entry (behavior : String → ChanBehavior) :
    ∀ (cs : List String) (st : RunState) (es : List (String × ChanEntry))
      (ch : String) (e : String),
      (runChannels behavior cs st).2 = some es → ch ∈ cs →
      (behavior ch).first.terminal = Terminal.raised e →
      ((ch, ⟨0, ChanStatus.error e⟩) ∈ es ∧
        ∀ r ∈ (behavior ch).first.written, r ∈ (runChannels behavior cs st).1.log) := by
  intro cs
  induction cs with
  | nil => intro st es ch e _ hmem _; simp at hmem
  | cons c rest ih =>
    intro st es ch e hsome hmem hterm
    rcases List.mem_cons.mp hmem with rfl | hmem'
    · simp only [runChannels, hterm] at hsome ⊢
      cases hr : (runChannels behavior rest
          ⟨st.log ++ (behavior ch).first.written, st.time + (behavior ch).first.dur⟩).2 with
      | none => rw [hr] at hsome; simp at hsome
      | some es' =>
        rw [hr] at hsome
        simp only [Option.map, Option.some.injEq] at hsome
        refine ⟨?_, ?_⟩
        · rw [← hsome]; simp
        · intro r hrw
          exact runChannels_log_mono behavior rest _ r (by simp [hrw])
    · cases h1 : (behavior c).first.terminal with
      | finished n =>
        simp only [runChannels, h1] at hsome ⊢
        cases hr : (runChannels behavior rest
            ⟨st.log ++ (behavior c).first.written, st.time + (behavior c).first.dur⟩).2 with
        | none => rw [hr] at hsome; simp at hsome
        | some es' =>
          rw [hr] at hsome
          simp only [Option.map, Option.some.injEq] at hsome
          obtain ⟨hmemE, hlog⟩ := ih _ es' ch e hr hmem' hterm
          exact ⟨by rw [← hsome]; simp [hmemE], hlog⟩
      | raised e2 =>
        simp only [runChannels, h1] at hsome ⊢
        cases hr : (runChannels behavior rest
            ⟨st.log ++ (behavior c).first.written, st.time + (behavior c).first.dur⟩).2 with
        | none => rw [hr] at hsome; simp at hsome
        | some es' =>
          rw [hr] at hsome
          simp only [Option.map, Option.some.injEq] at hsome
          obtain ⟨hmemE, hlog⟩ := ih _ es' ch e hr hmem' hterm
          exact ⟨by rw [← hsome]; simp [hmemE], hlog⟩
      | floodErr s =>
        cases h2 : (behavior c).second.terminal with
        | finished n =>
          simp only [runChannels, h1, h2] at hsome ⊢
          cases hr : (runChannels behavior rest
              ⟨st.log ++ (behavior c).first.written ++ (behavior c).second.written,
                st.time + (behavior c).first.dur + (s + 1) + (behavior c).second.dur⟩).2 with
          | none => rw [hr] at hsome; simp at hsome
          | some es' =>
            rw [hr] at hsome
            simp only [Option.map, Option.some.injEq] at hsome
            obtain ⟨hmemE, hlog⟩ := ih _ es' ch e hr hmem' hterm
            exact ⟨by rw [← hsome]; simp [hmemE], hlog⟩
        | floodErr s2 =>
          simp only [runChannels, h1, h2] at hsome
          exact absurd hsome (by simp)
        | raised e2 =>
          simp only [runChannels, h1, h2] at hsome
          exact absurd hsome (by simp)

theorem extract_message_id_scheme (lead tail : String) (n : Nat)
    (h : ∀ c ∈ lead.data, c.isDigit = false) :
    extract_message_id (lead ++ "_" ++ natStr n ++ "_" ++ tail) = some n := by
  have hu : ("_" : String).data = ['_'] := rfl
  have hdata : (lead ++ "_" ++ natStr n ++ "_" ++ tail).data
      = (lead.data ++ ['_']) ++ ((natStr n).data ++ '_' :: tail.data) := by
    simp [data_append, hu]
  unfold extract_message_id
  rw [hdata, firstDigitRunChars_append_nodigit _ _
    (by
      intro c hc
      rcases List.mem_append.mp hc with h1 | h1
      · exact h c h1
      · simp only [List.mem_singleton] at h1
        rw [h1]; rfl),
    firstDigitRunChars_run ((natStr n).data) '_' tail.data (natStr_ne_nil n)
      (natStr_digits n) (by rfl)]
  simp [natStr_val n]

/-! ## Concrete scenarios -/

/-- A feed message with the given id and date and no media. -/
def plainMsg (i d : Nat) : Option TMessage := some ⟨i, some d, MediaInfo.nothing, false⟩

/-- Scenario B feed: items dated 06-10, 06-05, 05-20, 06-01, in that
iteration order. -/
def feedB : List (Option TMessage) :=
  [plainMsg 100 20250610, plainMsg 101 20250605, plainMsg 102 20250520,
   plainMsg 103 20250601]

/-- Scenario B scan: `since = 2025-06-01`, no cap, non-incremental. -/
def scanB : ScanResult :=
  scrape_channel "news" Option.none false (some 20250601) Option.none 20250612 [] [] feedB

/-- Scenario A prior log: one day file with ids 1, 2, 3. -/
def priorA : List (List (Option Nat)) := [[some 1, some 2, some 3]]

/-- Scenario A feed: ids 5, 4, 3, 2, 1 newest-first. -/
def feedA : List (Option TMessage) :=
  [plainMsg 5 20250601, plainMsg 4 20250601, plainMsg 3 20250601,
   plainMsg 2 20250601, plainMsg 1 20250601]

/-- Scenario A scan: incremental, no date bounds, no cap. -/
def scanA : ScanResult :=
  scrape_channel "news_x" Option.none true Option.none Option.none 20250612 priorA [] feedA

/-- Cap scenario prior log: id 5 already saved. -/
def priorC5 : List (List (Option Nat)) := [[some 5]]

/-- Cap scenario feed: ids 5, 4, 3 newest-first. -/
def feedC5 : List (Option TMessage) :=
  [plainMsg 5 20250601, plainMsg 4 20250601, plainMsg 3 20250601]

/-- Cap scenario scan: incremental with `limit = 2` and no date bounds. -/
def scanC5 : ScanResult :=
  scrape_channel "newsy" (some 2) true Option.none Option.none 20250612 priorC5 [] feedC5

/-- A channel whose first scan raises a `FloodWaitError` and whose retry
raises a generic exception. -/
def behaviorBad : String → ChanBehavior :=
  fun _ => ⟨⟨[], 1, Terminal.floodErr 5⟩, ⟨[], 1, Terminal.raised "boom"⟩⟩

/-- A channel whose scans always return cleanly with count 3. -/
def behaviorGood : String → ChanBehavior :=
  fun _ => ⟨⟨[], 1, Terminal.finished 3⟩, ⟨[], 1, Terminal.finished 3⟩⟩

/-- A channel that persists two records and then raises a generic
exception. -/
def behaviorPartial : String → ChanBehavior :=
  fun _ => ⟨⟨[(20250601, 7), (20250601, 8)], 1, Terminal.raised "net down"⟩,
    ⟨[], 0, Terminal.finished 0⟩⟩

/-- The manifest actually produced by a run of `behaviorPartial` over one
channel. -/
def manifestPartial : Manifest :=
  ⟨0, ["c1"], 0, 1, [("c1", ⟨0, ChanStatus.error "net down"⟩)]⟩

/-! ## Claims -/

/-- C1, counterexample.  With `since = 2025-06-01` and feed items dated
[06-10, 06-05, 05-20, 06-01] in that iteration order, the scan persists only
the items dated 06-10 and 06-05: the item dated 06-01 (id 103) is NOT
persisted, contrary to the claim, because iteration breaks at the 05-20 item
before ever reaching it. -/
theorem C1_counterexample :
    scanB.persisted.map Prod.snd = [100, 101] ∧ 103 ∉ scanB.persisted.map Prod.snd
      ∧ scanB.count = 2 := by
  decide

/-- C1, amended.  When a scan with a `since` bound meets an item dated
before `since`, it stops iterating the source entirely and nothing after
that item is ever inspected; every item dated ≥ `since` encountered before
the halt (with no `until` bound, non-incrementally) is persisted, in order.
In scenario B only the items dated 06-10 and 06-05 are persisted (count 2);
the item dated 06-01, lying beyond the halt, is dropped. -/
theorem C1_early_exit :
    (∀ (s today : Nat) (sanitized : String) (files : List String)
        (pre : List TMessage) (bad : TMessage) (post : List (Option TMessage)),
      (∀ m ∈ pre, s ≤ m.date.getD today) →
      bad.date.getD today < s →
      (scrapeLoop [] (some s) Option.none today sanitized files
          (pre.map some ++ some bad :: post)).persisted
          = pre.map (fun m => (m.date.getD today, m.id))
        ∧ (scrapeLoop [] (some s) Option.none today sanitized files
            (pre.map some ++ some bad :: post)).count = pre.length)
    ∧ scanB.persisted.map Prod.snd = [100, 101] ∧ scanB.count = 2 := by
  exact ⟨fun s today sanitized files pre bad post h1 h2 =>
    scrapeLoop_early_exit s today sanitized pre files bad post h1 h2,
    by decide, by decide⟩

/-- Witness for C1: the early-exit theorem applied to a one-item prefix
followed by an out-of-range item and a nonempty tail that is never
inspected. -/
theorem C1_witness :
    (scrapeLoop [] (some 20250601) Option.none 20250612 "news" []
        (([⟨100, some 20250610, MediaInfo.nothing, false⟩] : List TMessage).map some
          ++ some ⟨102, some 20250520, MediaInfo.nothing, false⟩
            :: [plainMsg 103 20250601])).persisted
        = [(20250610, 100)]
      ∧ (scrapeLoop [] (some 20250601) Option.none 20250612 "news" []
          (([⟨100, some 20250610, MediaInfo.nothing, false⟩] : List TMessage).map some
            ++ some ⟨102, some 20250520, MediaInfo.nothing, false⟩
              :: [plainMsg 103 20250601])).count = 1 :=
  C1_early_exit.1 20250601 20250612 "news" []
    [⟨100, some 20250610, MediaInfo.nothing, false⟩]
    ⟨102, some 20250520, MediaInfo.nothing, false⟩ [plainMsg 103 20250601]
    (by decide) (by decide)

/-- C3.  In incremental mode no record whose id is in the Dedup Index is
ever appended; concretely, with prior ids {1,2,3} and feed [5,4,3,2,1]
newest-first and no date bounds, exactly ids 5 and 4 are newly persisted,
in that order, and the scan returns count 2. -/
theorem C3_incremental_idempotent :
    (∀ (priorLog : List (List (Option Nat))) (channel : String) (limit : Option Nat)
        (sinceD untilD : Option Nat) (today : Nat) (files : List String)
        (feed : List (Option TMessage)) (i : Nat),
      i ∈ load_seen_ids priorLog →
      ∀ r ∈ (scrape_channel channel limit true sinceD untilD today
          priorLog files feed).persisted, r.2 ≠ i)
    ∧ scanA.persisted.map Prod.snd = [5, 4] ∧ scanA.count = 2 := by
  refine ⟨?_, by decide, by decide⟩
  intro priorLog channel limit sinceD untilD today files feed i hi r hr hEq
  have hns := scrapeLoop_not_seen (load_seen_ids priorLog) sinceD untilD today
    (sanitize_filename channel) (takeLimit limit feed) files r hr
  exact hns (hEq ▸ hi)

/-- Witness for C3: id 3 is in the scenario A index, the record (date, 5) is
persisted, and its id differs from 3. -/
theorem C3_witness : ((20250601, 5) : Nat × Nat).2 ≠ 3 :=
  C3_incremental_idempotent.1 priorA "news_x" Option.none Option.none Option.none
    20250612 [] feedA 3 (by decide) (20250601, 5) (by decide)

/-- C5, counterexample.  With cap 2, prior ids {5}, feed [5,4,3] and no date
bounds, the dedup-skipped id 5 consumes one of the two cap slots: only id 4
is persisted (count 1), not the two new items {4, 3} the claim predicts. -/
theorem C5_counterexample :
    scanC5.persisted.map Prod.snd = [4] ∧ scanC5.count = 1
      ∧ 3 ∉ scanC5.persisted.map Prod.snd ∧ scanC5.count ≠ 2 := by
  decide

/-- C5, amended.  A dedup-skipped item does not increment the processed
count, but it does consume a slot of the requested cap, because the cap
bounds feed iteration before the dedup filter runs: with no date bounds the
persisted ids are exactly the non-indexed ids among the first `limit` feed
entries, and the count is their number. -/
theorem C5_cap_consumed :
    ∀ (priorLog : List (List (Option Nat))) (channel : String) (limit : Option Nat)
      (today : Nat) (files : List String) (feed : List (Option TMessage)),
      (scrape_channel channel limit true Option.none Option.none today
          priorLog files feed).persisted.map Prod.snd
          = newIds (load_seen_ids priorLog) (takeLimit limit feed)
        ∧ (scrape_channel channel limit true Option.none Option.none today
            priorLog files feed).count
          = (newIds (load_seen_ids priorLog) (takeLimit limit feed)).length := by
  intro priorLog channel limit today files feed
  exact scrapeLoop_noDates (load_seen_ids priorLog) today (sanitize_filename channel)
    (takeLimit limit feed) files

/-- C2, counterexample.  A configured run over one provided channel whose
scan raises a rate-limit error and whose single retry then raises a generic
exception ends with NO manifest written: the retry call sits inside the
`except FloodWaitError` handler and its exception is caught by nothing, so
the process aborts before the manifest write. -/
theorem C2_counterexample :
    (behaviorBad "c1").first.terminal = Terminal.floodErr 5
      ∧ dedupFirst ["c1"] = ["c1"]
      ∧ (mainRun behaviorBad 0 ["c1"]).2 = Option.none := by
  decide

/-- C2, amended.  Provided the deduplicated source list is nonempty and no
source's rate-limit retry raises again, the run writes exactly one manifest,
with one result entry per requested source in order and start/end timestamps
bracketing the run; a source list that dedups to empty, or a rate-limited
source whose retry raises, instead ends the run with no manifest. -/
theorem C2_manifest_when_retry_safe :
    ∀ (behavior : String → ChanBehavior) (t0 : Nat) (channels : List String),
      dedupFirst channels ≠ [] →
      (∀ ch ∈ dedupFirst channels, retrySafe (behavior ch)) →
      ∃ m, (mainRun behavior t0 channels).2 = some m
        ∧ m.results.map Prod.fst = dedupFirst channels
        ∧ m.started_at = t0 ∧ m.started_at ≤ m.finished_at := by
  intro behavior t0 channels hne hsafe
  obtain ⟨es, h1, h2, h3⟩ := runChannels_total behavior (dedupFirst channels) ⟨[], t0⟩ hsafe
  have hne' : (dedupFirst channels).isEmpty = false := by
    cases h : dedupFirst channels with
    | nil => exact absurd h hne
    | cons c cs => rfl
  refine ⟨⟨t0, dedupFirst channels, t0,
    (runChannels behavior (dedupFirst channels) ⟨[], t0⟩).1.time, es⟩, ?_, h2, rfl, h3⟩
  simp only [mainRun, hne', Bool.false_eq_true, if_false, h1]

/-- Witness for C2: a clean single-channel run yields a manifest with one
`ok` entry and ordered timestamps. -/
theorem C2_witness :
    ∃ m, (mainRun behaviorGood 0 ["c1"]).2 = some m
      ∧ m.results.map Prod.fst = dedupFirst ["c1"]
      ∧ m.started_at = 0 ∧ m.started_at ≤ m.finished_at :=
  C2_manifest_when_retry_safe behaviorGood 0 ["c1"] (by decide)
    (fun _ _ _ hs => Terminal.noConfusion hs)

/-- C4.  In `download_with_retries` a `FloodWaitError` never consumes an
attempt — any run of rate-limit waits is processed with the attempt counter
unchanged, each slept for the signalled seconds plus a margin of 1 — while a
generic failure consumes one attempt and sleeps `2 ^ attempt` (doubling per
attempt); once the counter reaches `max_retries` (default 4) the loop ends,
and four straight failures exhaust the budget after sleeps [2, 4, 8, 16]. -/
theorem C4_retry_policy :
    (∀ (s : Nat) (rest : List DlEvent) (a : Nat) (sl : List Nat), a < 4 →
      download_with_retries 4 (DlEvent.floodWait s :: rest) a sl
        = download_with_retries 4 rest a ((s + 1) :: sl))
    ∧ (∀ (floods : List Nat) (rest : List DlEvent) (a : Nat) (sl : List Nat), a < 4 →
      download_with_retries 4 (floods.map DlEvent.floodWait ++ rest) a sl
        = download_with_retries 4 rest a ((floods.map (· + 1)).reverse ++ sl))
    ∧ (∀ (rest : List DlEvent) (a : Nat) (sl : List Nat), a < 4 →
      download_with_retries 4 (DlEvent.failure :: rest) a sl
        = download_with_retries 4 rest (a + 1) ((2 ^ (a + 1)) :: sl))
    ∧ (∀ (evs : List DlEvent) (a : Nat) (sl : List Nat), 4 ≤ a →
      download_with_retries 4 evs a sl = DlOutcome.exhausted sl.reverse)
    ∧ download_with_retries 4 (List.replicate 4 DlEvent.failure) 0 []
        = DlOutcome.exhausted [2, 4, 8, 16] := by
  refine ⟨?_, ?_, ?_, ?_, by decide⟩
  · intro s rest a sl h
    simp [download_with_retries, h]
  · intro floods
    induction floods with
    | nil => intro rest a sl _; simp
    | cons f fs ih =>
      intro rest a sl h
      have hstep : download_with_retries 4
          (DlEvent.floodWait f :: (fs.map DlEvent.floodWait ++ rest)) a sl
          = download_with_retries 4 (fs.map DlEvent.floodWait ++ rest) a ((f + 1) :: sl) := by
        simp [download_with_retries, h]
      simp only [List.map_cons, List.cons_append, hstep, ih rest a ((f + 1) :: sl) h,
        List.reverse_cons, List.append_assoc, List.singleton_append, List.nil_append]
  · intro rest a sl h
    simp [download_with_retries, h]
  · intro evs a sl h
    cases evs with
    | nil => simp [download_with_retries, Nat.not_lt.mpr h]
    | cons ev rest => simp [download_with_retries, Nat.not_lt.mpr h]

/-- Witness for C4: one concrete flood wait leaves the attempt counter at 0
and sleeps 61 seconds; one concrete generic failure moves it to 1 and sleeps
2 seconds; an exhausted counter returns immediately. -/
theorem C4_witness :
    download_with_retries 4 [DlEvent.floodWait 60, DlEvent.success (some "p")] 0 []
        = download_with_retries 4 [DlEvent.success (some "p")] 0 [61]
      ∧ download_with_retries 4 [DlEvent.failure, DlEvent.success Option.none] 0 []
        = download_with_retries 4 [DlEvent.success Option.none] 1 [2]
      ∧ download_with_retries 4 [DlEvent.success (some "q")] 4 [16, 8, 4, 2]
        = DlOutcome.exhausted [2, 4, 8, 16] :=
  ⟨C4_retry_policy.1 60 [DlEvent.success (some "p")] 0 [] (by decide),
    C4_retry_policy.2.2.1 [DlEvent.success Option.none] 0 [] (by decide),
    C4_retry_policy.2.2.2.1 [DlEvent.success (some "q")] 4 [16, 8, 4, 2] (by decide)⟩

/-- C6, counterexample.  For the source name "ch1" (scenario C's own channel)
and item id 42, the asset stem is "ch1_42_2025-06-01" and the first
contiguous digit run is "1" — the digit inside the channel name — so the
extraction yields 1, not the item id 42. -/
theorem C6_counterexample :
    extract_message_id (sanitize_filename "ch1" ++ "_" ++ natStr 42 ++ "_" ++ dateIso 20250601)
        = some 1
      ∧ (some 1 : Option Nat) ≠ some 42 := by
  decide

/-- C6, amended.  The first-digit-run extraction recovers the item id for a
stem written by the downloader exactly when the sanitized source name
contains no digit: the id's decimal digits then form the first digit run,
whatever follows the separator after them. -/
theorem C6_digit_free_channel :
    ∀ (channel tailStr : String) (msgId : Nat),
      (∀ c ∈ (sanitize_filename channel).data, c.isDigit = false) →
      extract_message_id (sanitize_filename channel ++ "_" ++ natStr msgId ++ "_" ++ tailStr)
        = some msgId := by
  intro channel tailStr msgId h
  exact extract_message_id_scheme (sanitize_filename channel) tailStr msgId h

/-- Witness for C6: for the digit-free channel "chx", id 42 is recovered
from the stem "chx_42_2025-06-01". -/
theorem C6_witness :
    extract_message_id (sanitize_filename "chx" ++ "_" ++ natStr 42 ++ "_" ++ dateIso 20250601)
      = some 42 :=
  C6_digit_free_channel "chx" (dateIso 20250601) 42 (by decide)

/-- C7.  When an item that declares an image asset fails its download
(`download_with_retries` returned `None`), the scan step still appends the
item's record, still increments the processed count, records the failed
attempt, leaves the image directory unchanged, and continues with the rest
of the feed exactly as it would have. -/
theorem C7_asset_failure_nonfatal :
    ∀ (seen : List Nat) (sinceD untilD : Option Nat) (today : Nat) (sanitized : String)
      (files : List String) (msg : TMessage) (rest : List (Option TMessage)),
      msg.id ∉ seen →
      checkSince sinceD (msg.date.getD today) = false →
      checkUntil untilD (msg.date.getD today) = false →
      isImage msg.media = true →
      msg.dlOk = false →
      scrapeLoop seen sinceD untilD today sanitized files (some msg :: rest)
        = ⟨(msg.date.getD today, msg.id)
              :: (scrapeLoop seen sinceD untilD today sanitized files rest).persisted,
            (scrapeLoop seen sinceD untilD today sanitized files rest).count + 1,
            (resolveDest files
                (sanitized ++ "_" ++ natStr msg.id ++ "_" ++ dateIso (msg.date.getD today))
                (extOf msg.media), false)
              :: (scrapeLoop seen sinceD untilD today sanitized files rest).downloads,
            (scrapeLoop seen sinceD untilD today sanitized files rest).files⟩ := by
  intro seen sinceD untilD today sanitized files msg rest hns hs hu hi hd
  rw [scrapeLoop_persist seen sinceD untilD today sanitized files msg rest hns hs hu,
    mediaStep_dlFail sanitized files msg (msg.date.getD today) hi hd]
  rfl

/-- Witness for C7: a photo message whose download fails is persisted and
counted, and the empty remaining feed is processed as usual. -/
theorem C7_witness :
    scrapeLoop [] Option.none Option.none 20250601 "c" []
        (some ⟨42, some 20250601, MediaInfo.photo, false⟩ :: [])
      = ⟨(20250601, 42)
            :: (scrapeLoop [] Option.none Option.none 20250601 "c" [] []).persisted,
          (scrapeLoop [] Option.none Option.none 20250601 "c" [] []).count + 1,
          (resolveDest [] ("c" ++ "_" ++ natStr 42 ++ "_" ++ dateIso 20250601)
              (extOf MediaInfo.photo), false)
            :: (scrapeLoop [] Option.none Option.none 20250601 "c" [] []).downloads,
          (scrapeLoop [] Option.none Option.none 20250601 "c" [] []).files⟩ :=
  C7_asset_failure_nonfatal [] Option.none Option.none 20250601 "c" []
    ⟨42, some 20250601, MediaInfo.photo, false⟩ [] (by decide) rfl rfl (by decide) rfl

/-- C8.  Media Retrieval never overwrites: a destination returned by the
collision loop is never an existing file; when the derived name is free it
is used unchanged; and a collision with existing "ch1_42_2025-06-01.jpg"
yields "ch1_42_2025-06-01_1.jpg". -/
theorem C8_no_overwrite :
    (∀ (existing : List String) (stem ext p : String),
      resolveDest existing stem ext = some p → p ∉ existing)
    ∧ (∀ (existing : List String) (stem ext : String),
      stem ++ ext ∉ existing → resolveDest existing stem ext = some (stem ++ ext))
    ∧ resolveDest ["ch1_42_2025-06-01.jpg"] "ch1_42_2025-06-01" ".jpg"
        = some "ch1_42_2025-06-01_1.jpg" := by
  refine ⟨resolveDest_free, resolveDest_of_free, ?_⟩
  decide

/-- Witness for C8: the resolved destination "a_1.jpg" is not among the
existing files, applied at a concrete collision. -/
theorem C8_witness : "a_1.jpg" ∉ ["a.jpg"] :=
  C8_no_overwrite.1 ["a.jpg"] "a" ".jpg" "a_1.jpg" (by decide)

/-- C9.  A message with no timestamp is dated `date.today()`: it survives
the `since` early exit whenever today's date passes the bound, and when the
`until` filter also passes it is persisted into the partition named by
today's date. -/
theorem C9_missing_date_uses_today :
    ∀ (seen : List Nat) (sinceD untilD : Option Nat) (today : Nat) (sanitized : String)
      (files : List String) (msg : TMessage) (rest : List (Option TMessage)),
      msg.date = Option.none →
      msg.id ∉ seen →
      checkSince sinceD today = false →
      checkUntil untilD today = false →
      (scrapeLoop seen sinceD untilD today sanitized files (some msg :: rest)).persisted
        = (today, msg.id)
            :: (scrapeLoop seen sinceD untilD today sanitized
                (mediaStep sanitized files msg today).2 rest).persisted := by
  intro seen sinceD untilD today sanitized files msg rest hdate hns hs hu
  have hgd : msg.date.getD today = today := by rw [hdate]; rfl
  rw [scrapeLoop_persist seen sinceD untilD today sanitized files msg rest hns
    (by rw [hgd]; exact hs) (by rw [hgd]; exact hu), hgd]

/-- Witness for C9: a dateless message scanned on 2025-06-12 with
`since = 2025-06-01` lands in the 2025-06-12 partition. -/
theorem C9_witness :
    (scrapeLoop [] (some 20250601) Option.none 20250612 "c" []
        (some ⟨9, Option.none, MediaInfo.nothing, false⟩ :: [])).persisted
      = (20250612, 9)
          :: (scrapeLoop [] (some 20250601) Option.none 20250612 "c"
              (mediaStep "c" [] ⟨9, Option.none, MediaInfo.nothing, false⟩ 20250612).2
              []).persisted :=
  C9_missing_date_uses_today [] (some 20250601) Option.none 20250612 "c" []
    ⟨9, Option.none, MediaInfo.nothing, false⟩ [] rfl (by decide) (by decide) rfl

/-- C10.  When a channel's scan dies with a non-rate-limit exception, the
manifest entry written for it is `{"processed": 0, "status": "error:…"}`
no matter how many records the scan had already appended, and those records
all remain in the durable item log — the errored entry undercounts durable
progress. -/
theorem C10_error_entry_zero :
    ∀ (behavior : String → ChanBehavior) (t0 : Nat) (channels : List String)
      (m : Manifest) (ch e : String),
      (mainRun behavior t0 channels).2 = some m →
      ch ∈ dedupFirst channels →
      (behavior ch).first.terminal = Terminal.raised e →
      ((ch, ⟨0, ChanStatus.error e⟩) ∈ m.results
        ∧ ∀ r ∈ (behavior ch).first.written, r ∈ (mainRun behavior t0 channels).1.log) := by
  intro behavior t0 channels m ch e hm hch hterm
  cases hempty : (dedupFirst channels).isEmpty with
  | true => rw [mainRun] at hm; simp [hempty] at hm
  | false =>
    cases hr : (runChannels behavior (dedupFirst channels) ⟨[], t0⟩).2 with
    | none =>
      rw [mainRun] at hm
      simp [hempty, hr] at hm
    | some es =>
      have key : mainRun behavior t0 channels
          = ((runChannels behavior (dedupFirst channels) ⟨[], t0⟩).1,
            some ⟨t0, dedupFirst channels, t0,
              (runChannels behavior (dedupFirst channels) ⟨[], t0⟩).1.time, es⟩) := by
        simp only [mainRun, hempty, Bool.false_eq_true, if_false, hr]
      rw [key] at hm
      have hm' := Option.some.inj hm
      obtain ⟨hmem, hlog⟩ := runChannels_error_entry behavior (dedupFirst channels)
        ⟨[], t0⟩ es ch e hr hch hterm
      rw [key, ← hm']
      exact ⟨hmem, hlog⟩

/-- Witness for C10: a channel that appends records (date, 7) and (date, 8)
and then raises gets the entry `{"processed": 0, "status": error}` while
both records remain in the final log. -/
theorem C10_witness :
    (("c1", (⟨0, ChanStatus.error "net down"⟩ : ChanEntry)) ∈ manifestPartial.results
      ∧ ∀ r ∈ (behaviorPartial "c1").first.written,
          r ∈ (mainRun behaviorPartial 0 ["c1"]).1.log) :=
  C10_error_entry_zero behaviorPartial 0 ["c1"] manifestPartial "c1" "net down"
    (by decide) (by decide) rfl
